import Mathlib

/-!
Shallow embedding of `yt_downloader.py` (YouTube channel bulk video
downloader): the SQLite-backed job repository (`videos` table), the
status-update operations, the identifier extraction, filename
sanitization, the per-video download orchestration and the deletion
operation, together with theorems settling the specification claims.
-/

set_option maxRecDepth 20000

/-- One row of the `videos` table created by `_init_db`.  `video_id` is
`TEXT NOT NULL`, `video_url` is `TEXT UNIQUE NOT NULL`; the nullable
columns are `Option`s.  Timestamps are abstracted as `Nat`. -/
structure VideoRow where
  video_url : String
  video_id : String
  title : Option String
  channel_url : Option String
  status : String
  download_path : Option String
  custom_filename : Option String
  scraped_at : Nat
  downloaded_at : Option Nat
  error_msg : Option String
deriving Repr, DecidableEq, Inhabited

/-- The database: the list of rows of the `videos` table, in insertion
(rowid) order. -/
abbrev VideoDb := List VideoRow

/-- The `video_url` column of the table, used for the UNIQUE constraint. -/
def dbUrls (db : VideoDb) : List String := db.map (fun r => r.video_url)

/-- Character class `[a-zA-Z0-9_-]` of the regex in `_extract_video_id`. -/
def isIdChar (c : Char) : Bool := c.isAlpha || c.isDigit || c = '_' || c = '-'

/-- Try to match the regex `v=([a-zA-Z0-9_-]{11})` at the head of the
character list: `v`, `=`, then exactly eleven class characters. -/
def matchIdAt : List Char → Option (List Char)
  | 'v' :: '=' :: rest =>
      let tok := rest.take 11
      if tok.length = 11 && tok.all isIdChar then some tok else none
  | _ => none

/-- Leftmost-match scan of `re.search`: try each start position in turn. -/
def findVideoId : List Char → Option (List Char)
  | [] => none
  | c :: rest =>
      match matchIdAt (c :: rest) with
      | some tok => some tok
      | none => findVideoId rest

/-- `_extract_video_id`: `re.search(r"v=([a-zA-Z0-9_-]{11})", url)`,
returning the captured group or `None`. -/
def extract_video_id (s : String) : Option String :=
  (findVideoId s.data).map (fun l => String.mk l)

/-- The reserved characters removed by `_sanitize_filename`'s
`re.sub(r'[<>:"/\\|?*]', "", filename)`. -/
def reservedChar (c : Char) : Bool :=
  c = '<' || c = '>' || c = ':' || c = '\"' || c = '/' || c = '\\' ||
  c = '|' || c = '?' || c = '*'

/-- The whitespace characters Python's `str.strip()` removes (ASCII). -/
def pySpace (c : Char) : Bool :=
  c = ' ' || c = '\t' || c = '\n' || c = '\r' || c = '\x0b' || c = '\x0c'

/-- Python `str.strip()` on a character list: drop whitespace from both
ends. -/
def pyStripL (cs : List Char) : List Char :=
  ((cs.dropWhile pySpace).reverse.dropWhile pySpace).reverse

/-- Python `str.strip()` on a string. -/
def pyStrip (s : String) : String := String.mk (pyStripL s.data)

/-- Python slice `s[:n]`. -/
def pyTake (n : Nat) (s : String) : String := String.mk (s.data.take n)

/-- Python slice `l[-n:]`: the last `min (length l) n` elements. -/
def lastN (n : Nat) (l : List α) : List α := l.drop (l.length - n)

/-- Python `str.lower()` (character-wise). -/
def pyLower (s : String) : String := String.mk (s.data.map Char.toLower)

/-- `_sanitize_filename`: remove the reserved characters, `strip()`, then
truncate to 200 characters (`filename[:200]`). -/
def sanitize_filename (s : String) : String :=
  String.mk ((pyStripL (s.data.filter (fun c => !reservedChar c))).take 200)

/-- The fresh row the `INSERT` of `add_videos_to_db` creates: status
`'pending'`, every nullable column `NULL`. -/
def newRow (url vid channel : String) (t : Nat) : VideoRow :=
  { video_url := url, video_id := vid, title := none,
    channel_url := some channel, status := "pending",
    download_path := none, custom_filename := none, scraped_at := t,
    downloaded_at := none, error_msg := none }

/-- One iteration of `add_videos_to_db`'s loop: the `INSERT` succeeds and
counts only when `video_id` extraction produced a value (the column is
`NOT NULL`) and no row with the same `video_url` exists (`UNIQUE`); a
`sqlite3.IntegrityError` from either constraint is swallowed by the
`except ... pass`. -/
def insertVideo (db : VideoDb) (url channel : String) (t : Nat) :
    VideoDb × Bool :=
  match extract_video_id url with
  | none => (db, false)
  | some vid =>
      if url ∈ dbUrls db then (db, false)
      else (db ++ [newRow url vid channel t], true)

/-- `add_videos_to_db`: fold the insert over the scraped URLs, counting
the rows actually added. -/
def add_videos_to_db (db : VideoDb) (urls : List String)
    (channel : String) (t : Nat) : VideoDb × Nat :=
  match urls with
  | [] => (db, 0)
  | u :: rest =>
      let step := insertVideo db u channel t
      let next := add_videos_to_db step.1 rest channel t
      (next.1, next.2 + (if step.2 then 1 else 0))

/-- The `status == "completed"` branch of `_update_video_status`: set
`status`, `download_path`, `title`, `custom_filename`, `downloaded_at` on
every row matching the URL.  `error_msg` is not in the `SET` list. -/
def markCompleted (db : VideoDb) (url path title : String)
    (custom : Option String) (t : Nat) : VideoDb :=
  db.map (fun r =>
    if r.video_url = url then
      { r with status := "completed", download_path := some path,
               title := some title, custom_filename := custom,
               downloaded_at := some t }
    else r)

/-- The other branch of `_update_video_status` (used with `"failed"`):
set `status` and `error_msg` on every row matching the URL.
`download_path` is not in the `SET` list. -/
def markFailed (db : VideoDb) (url err : String) : VideoDb :=
  db.map (fun r =>
    if r.video_url = url then { r with status := "failed", error_msg := some err }
    else r)

/-- The row filter of `delete_videos`: `"all"` matches every row, any
other argument matches on the `status` column. -/
def statusMatches (filt : String) (r : VideoRow) : Bool :=
  filt = "all" || r.status = filt

/-- `delete_videos(status, skip_confirmation)` with the operator's answer
to the confirmation prompt made explicit: count the matching rows; if
zero, return without prompting; otherwise prompt unless skipped, abort on
any answer whose lowercasing is not `"y"`; else delete the matching rows
and report the count.  Returns the new table and the deleted count (0 on
the no-op paths). -/
def delete_videos (db : VideoDb) (filt : String) (skip_confirmation : Bool)
    (answer : String) : VideoDb × Nat :=
  let count := (db.filter (statusMatches filt)).length
  if count = 0 then (db, 0)
  else if skip_confirmation = false ∧ pyLower answer ≠ "y" then (db, 0)
  else (db.filter (fun r => !statusMatches filt r), count)

/-- Outcome of the `yt-dlp --print title` metadata query in
`download_video`: `subprocess.run(..., timeout=30)` either raises
`TimeoutExpired` or returns an exit code and captured stdout. -/
inductive MetaResult where
  | timeout
  | done (exitCode : Nat) (stdout : String)
deriving Repr, DecidableEq

/-- Outcome of the `yt-dlp` download subprocess: the streamed output
lines (each with its newline) and the exit code, or an unexpected
exception with its message (the generic `except Exception` path). -/
inductive DlResult where
  | run (lines : List String) (exitCode : Nat)
  | fault (msg : String)
deriving Repr, DecidableEq

/-- The external-world inputs of one `download_video` call. -/
structure DlEnv where
  meta : MetaResult
  dl : DlResult
deriving Repr, DecidableEq

/-- The fallback title `f"video_{video_id}"`. -/
def fallbackTitle (video_id : String) : String := "video_" ++ video_id

/-- The filename choice in `download_video`: `custom_name` first, else
the (sanitized) title when `use_title`, else the raw `video_id`. -/
def chooseFilename (video_id title : String) (custom : Option String)
    (use_title : Bool) : String :=
  match custom with
  | some c => sanitize_filename c
  | none => if use_title then sanitize_filename title else video_id

/-- `self.download_dir / f"{filename}.mp4"`. -/
def videoOutputPath (dir filename : String) : String :=
  dir ++ "/" ++ filename ++ ".mp4"

/-- The database write `download_video` performs through
`_update_video_status`. -/
inductive StatusUpdate where
  | completed (url path title : String) (custom : Option String)
  | failed (url err : String)
deriving Repr, DecidableEq

/-- `download_video(video_id, video_url, custom_name, use_title)`:
resolve the title (fallback on non-zero exit of the metadata query; a
metadata timeout is caught by `except subprocess.TimeoutExpired` and
marks the job failed with `"Download timeout"`), choose and sanitize the
filename, run the downloader; exit 0 marks completed, a non-zero exit
marks failed with `"".join(output_lines[-10:])[:500]`, an unexpected
exception marks failed with `str(e)[:500]`.  Returns the `(bool, str)`
result and the status write performed. -/
def download_video (dir video_id video_url : String)
    (custom : Option String) (use_title : Bool) (env : DlEnv) :
    (Bool × String) × StatusUpdate :=
  match env.meta with
  | .timeout =>
      ((false, "Download timeout"), .failed video_url "Download timeout")
  | .done rc out =>
      let title := if rc = 0 then pyStrip out else fallbackTitle video_id
      let filename := chooseFilename video_id title custom use_title
      let output_path := videoOutputPath dir filename
      match env.dl with
      | .run lines ec =>
          if ec = 0 then
            ((true, output_path), .completed video_url output_path title custom)
          else
            let error := pyTake 500 (String.join (lastN 10 lines))
            ((false, error), .failed video_url error)
      | .fault msg =>
          ((false, pyTake 500 msg), .failed video_url (pyTake 500 msg))

/-- The per-item naming behavior `download_all_pending` ends up applying
to one video. -/
inductive NamingMode where
  | byTitle
  | byId
  | custom (name : String)
deriving Repr, DecidableEq

/-- One interactive answer in `download_all_pending`'s loop: the text
entered at `"Use video title as filename? (y/n/custom)"` and, when that
text is `"custom"`, the custom filename entered next. -/
structure Choice where
  answer : String
  customName : String
deriving Repr, DecidableEq

/-- The naming mode one loop iteration applies, given the current value
of the `use_title` variable: `custom_name` (reset to `None` each
iteration) wins, an `"n"` answer forces the video id, otherwise the
current `use_title` decides. -/
def namingStepMode (use_title : Bool) (c : Choice) : NamingMode :=
  if c.answer = "custom" then .custom c.customName
  else if c.answer = "n" then .byId
  else if use_title then .byTitle else .byId

/-- The naming modes `download_all_pending` applies across a batch in
interactive mode: the loop mutates the `use_title` variable (an `"n"`
answer sets it to `False` and nothing ever sets it back), so the state
threads into later iterations. -/
def namingDecisions (use_title : Bool) : List Choice → List NamingMode
  | [] => []
  | c :: rest =>
      namingStepMode use_title c ::
        namingDecisions (if c.answer = "n" then false else use_title) rest

/-- The §3 biconditionals of the spec for one row: `completed` iff
`download_path` set and `error_msg` absent; `failed` iff `error_msg` set
and `download_path` absent; `pending` iff both absent. -/
def rowInv (r : VideoRow) : Prop :=
  (r.status = "completed" ↔ r.download_path ≠ none ∧ r.error_msg = none) ∧
  (r.status = "failed" ↔ r.error_msg ≠ none ∧ r.download_path = none) ∧
  (r.status = "pending" ↔ r.download_path = none ∧ r.error_msg = none)

instance : DecidablePred rowInv := fun r => by
  unfold rowInv
  infer_instance

/-- A freshly inserted row: `pending` with both outcome columns `NULL`. -/
def cleanPending (r : VideoRow) : Prop :=
  r.status = "pending" ∧ r.download_path = none ∧ r.error_msg = none

instance : DecidablePred cleanPending := fun r => by
  unfold cleanPending
  infer_instance

/-- Terminal statuses of the lifecycle. -/
def isTerminal (s : String) : Bool := s = "completed" || s = "failed"

/-! ## Helper lemmas -/

theorem head?_append_some {α : Type} {l t : List α} {c : α}
    (h : l.head? = some c) : (l ++ t).head? = some c := by
  cases l with
  | nil => simp at h
  | cons a l => simpa using h

theorem head?_dropWhile_false {α : Type} {p : α → Bool} :
    ∀ {l : List α} {c : α}, (l.dropWhile p).head? = some c → p c = false := by
  intro l
  induction l with
  | nil => intro c h; simp [List.dropWhile] at h
  | cons a l ih =>
      intro c h
      by_cases hp : p a
      · rw [show (a :: l).dropWhile p = l.dropWhile p by simp [List.dropWhile, hp]] at h
        exact ih h
      · rw [show (a :: l).dropWhile p = a :: l by simp [List.dropWhile, hp]] at h
        simp at h
        subst h
        simpa using hp

theorem head?_pyStripL {l : List Char} {c : Char}
    (h : (pyStripL l).head? = some c) : pySpace c = false := by
  unfold pyStripL at h
  obtain ⟨t, ht⟩ :=
    List.dropWhile_suffix (l := (l.dropWhile pySpace).reverse) pySpace
  have hd : (l.dropWhile pySpace).head? = some c := by
    have h2 := congrArg List.reverse ht
    rw [List.reverse_append, List.reverse_reverse] at h2
    rw [← h2]
    exact head?_append_some h
  exact head?_dropWhile_false hd

theorem revHead?_pyStripL {l : List Char} {c : Char}
    (h : (pyStripL l).reverse.head? = some c) : pySpace c = false := by
  unfold pyStripL at h
  rw [List.reverse_reverse] at h
  exact head?_dropWhile_false h

theorem mem_pyStripL {c : Char} {l : List Char} (h : c ∈ pyStripL l) :
    c ∈ l := by
  unfold pyStripL at h
  rw [List.mem_reverse] at h
  have h2 := (List.dropWhile_sublist _).mem h
  rw [List.mem_reverse] at h2
  exact (List.dropWhile_sublist _).mem h2

theorem head?_take_succ {α : Type} (l : List α) (n : Nat) :
    (l.take (n + 1)).head? = l.head? := by
  cases l <;> rfl

theorem dropWhile_eq_nil_all {α : Type} {p : α → Bool} :
    ∀ {l : List α}, (∀ c ∈ l, p c = true) → l.dropWhile p = [] := by
  intro l
  induction l with
  | nil => intro _; rfl
  | cons a l ih =>
      intro h
      rw [show (a :: l).dropWhile p = l.dropWhile p by simp [List.dropWhile, h a (by simp)]]
      exact ih (fun c hc => h c (by simp [hc]))

theorem length_filter_split {α : Type} (l : List α) (p : α → Bool) :
    (l.filter p).length + (l.filter (fun r => !p r)).length = l.length := by
  induction l with
  | nil => rfl
  | cons a l ih =>
      by_cases hp : p a <;> simp [List.filter, hp] <;> omega

/-- The result of `sanitize_filename` contains no reserved character. -/
def noReserved (s : String) : Bool := s.data.all (fun c => !reservedChar c)

/-- The first character of the string is not whitespace (vacuous when
empty). -/
def headNotSpace (s : String) : Bool :=
  match s.data.head? with
  | some c => !pySpace c
  | none => true

/-- The last character of the string is not whitespace (vacuous when
empty). -/
def lastNotSpace (s : String) : Bool :=
  match s.data.reverse.head? with
  | some c => !pySpace c
  | none => true

theorem pyTake_length_le (n : Nat) (s : String) : (pyTake n s).length ≤ n := by
  show (s.data.take n).length ≤ n
  rw [List.length_take]
  exact min_le_left ..

theorem cleanPending_rowInv (r : VideoRow) (h : cleanPending r) : rowInv r := by
  obtain ⟨h1, h2, h3⟩ := h
  unfold rowInv
  rw [h1, h2, h3]
  decide

/-! ## Claim C1 -/

/-- C1 (corrected): the status/field biconditionals do NOT hold after
every operation sequence.  Concretely: insert a pending row, mark it
failed, then mark it completed — the final row has `status = completed`
with BOTH `download_path` and `error_msg` set, because the `completed`
branch of `_update_video_status` does not clear `error_msg` (and the
`failed` branch does not clear `download_path`). -/
theorem C1_counterexample :
    (markCompleted
        (markFailed
          (insertVideo [] "https://www.youtube.com/watch?v=abcdefghijk" "chan" 0).1
          "https://www.youtube.com/watch?v=abcdefghijk" "boom")
        "https://www.youtube.com/watch?v=abcdefghijk" "downloads/T.mp4" "T" none 1).map
      (fun r => (r.status, r.download_path, r.error_msg)) =
    [("completed", some "downloads/T.mp4", some "boom")] := by decide

/-- C1 (amended): `mark_failed` leaves `download_path` of every row
unchanged and `mark_completed` leaves `error_msg` of every row unchanged
(neither clears the other outcome column); a fresh insert only creates
rows that are `pending` with both outcome columns `NULL`, every such
clean row satisfies the biconditionals, and a single mark operation
applied to a store of clean rows yields rows that all satisfy the
biconditionals.  The biconditionals therefore hold after any sequence of
inserts followed by at most one mark per row, but not after re-marking. -/
theorem C1_claim :
    (∀ db url e, (markFailed db url e).map (fun r => r.download_path) =
        db.map (fun r => r.download_path)) ∧
    (∀ db url path title custom t,
        (markCompleted db url path title custom t).map (fun r => r.error_msg) =
        db.map (fun r => r.error_msg)) ∧
    (∀ db url channel t, (∀ r ∈ db, cleanPending r) →
        ∀ r ∈ (insertVideo db url channel t).1, cleanPending r) ∧
    (∀ r, cleanPending r → rowInv r) ∧
    (∀ db, (∀ r ∈ db, cleanPending r) →
        (∀ url path title custom t,
          ∀ r ∈ markCompleted db url path title custom t, rowInv r) ∧
        (∀ url e, ∀ r ∈ markFailed db url e, rowInv r)) := by
  refine ⟨?_, ?_, ?_, cleanPending_rowInv, ?_⟩
  · intro db url e
    unfold markFailed
    rw [List.map_map]
    refine List.map_congr_left ?_
    intro r _
    by_cases hu : r.video_url = url <;> simp [hu]
  · intro db url path title custom t
    unfold markCompleted
    rw [List.map_map]
    refine List.map_congr_left ?_
    intro r _
    by_cases hu : r.video_url = url <;> simp [hu]
  · intro db url channel t hdb r hr
    cases hext : extract_video_id url with
    | none =>
        rw [show insertVideo db url channel t = (db, false) by
          simp [insertVideo, hext]] at hr
        exact hdb r hr
    | some vid =>
        by_cases hmem : url ∈ dbUrls db
        · rw [show insertVideo db url channel t = (db, false) by
            simp [insertVideo, hext, hmem]] at hr
          exact hdb r hr
        · rw [show insertVideo db url channel t =
              (db ++ [newRow url vid channel t], true) by
            simp [insertVideo, hext, hmem]] at hr
          simp only [List.mem_append, List.mem_singleton] at hr
          cases hr with
          | inl h => exact hdb r h
          | inr h => subst h; exact ⟨rfl, rfl, rfl⟩
  · intro db hdb
    constructor
    · intro url path title custom t r hr
      unfold markCompleted at hr
      obtain ⟨x, hx, hfx⟩ := List.mem_map.mp hr
      have hcx := hdb x hx
      by_cases hu : x.video_url = url
      · rw [if_pos hu] at hfx
        subst hfx
        unfold rowInv
        refine ⟨?_, ?_, ?_⟩ <;> simp [hcx.2.2]
      · rw [if_neg hu] at hfx
        subst hfx
        exact cleanPending_rowInv x hcx
    · intro url e r hr
      unfold markFailed at hr
      obtain ⟨x, hx, hfx⟩ := List.mem_map.mp hr
      have hcx := hdb x hx
      by_cases hu : x.video_url = url
      · rw [if_pos hu] at hfx
        subst hfx
        unfold rowInv
        refine ⟨?_, ?_, ?_⟩ <;> simp [hcx.2.1]
      · rw [if_neg hu] at hfx
        subst hfx
        exact cleanPending_rowInv x hcx

/-! ## Claim C2 -/

/-- C2 (corrected): a terminal status is not sticky.  The reachable
sequence insert → mark_failed → mark_completed (the single-video CLI path
re-attempts a URL regardless of its stored status) moves the row from
`failed` to `completed`, because neither branch of
`_update_video_status` guards on the current status. -/
theorem C2_counterexample :
    ((markFailed
        (insertVideo [] "https://www.youtube.com/watch?v=abcdefghijk" "chan" 0).1
        "https://www.youtube.com/watch?v=abcdefghijk" "boom").map
          (fun r => r.status) = ["failed"]) ∧
    ((markCompleted
        (markFailed
          (insertVideo [] "https://www.youtube.com/watch?v=abcdefghijk" "chan" 0).1
          "https://www.youtube.com/watch?v=abcdefghijk" "boom")
        "https://www.youtube.com/watch?v=abcdefghijk" "downloads/T.mp4" "T" none 1).map
          (fun r => r.status) = ["completed"]) := by decide

/-- C2 (amended): once a row's status is terminal (`completed` or
`failed`) it stays terminal under every later `mark_completed` or
`mark_failed` — no mark operation ever returns a row to `pending`, and
deletion is the only removal — but a later mark of the other kind can
switch a row between the two terminal states. -/
theorem C2_claim (db : VideoDb) (i : Nat) (r : VideoRow)
    (hg : db[i]? = some r) (ht : isTerminal r.status = true) :
    (∀ url path title custom t, ∃ r',
        (markCompleted db url path title custom t)[i]? = some r' ∧
        isTerminal r'.status = true) ∧
    (∀ url e, ∃ r',
        (markFailed db url e)[i]? = some r' ∧ isTerminal r'.status = true) := by
  constructor
  · intro url path title custom t
    refine ⟨if r.video_url = url then
        { r with status := "completed", download_path := some path,
                 title := some title, custom_filename := custom,
                 downloaded_at := some t }
      else r, ?_, ?_⟩
    · unfold markCompleted
      rw [List.getElem?_map, hg]
      rfl
    · by_cases hu : r.video_url = url
      · rw [if_pos hu]
        show isTerminal "completed" = true
        decide
      · rw [if_neg hu]; exact ht
  · intro url e
    refine ⟨if r.video_url = url then
        { r with status := "failed", error_msg := some e }
      else r, ?_, ?_⟩
    · unfold markFailed
      rw [List.getElem?_map, hg]
      rfl
    · by_cases hu : r.video_url = url
      · rw [if_pos hu]
        show isTerminal "failed" = true
        decide
      · rw [if_neg hu]; exact ht

/-- C2 witness: the amended theorem evaluated on a concrete one-row store
holding a `failed` job. -/
theorem C2_witness :
    ∃ r', (markFailed
        [{ video_url := "u", video_id := "abcdefghijk", title := none,
           channel_url := none, status := "failed", download_path := none,
           custom_filename := none, scraped_at := 0, downloaded_at := none,
           error_msg := some "e" }] "u" "again")[0]? = some r' ∧
      isTerminal r'.status = true :=
  (C2_claim
      [{ video_url := "u", video_id := "abcdefghijk", title := none,
         channel_url := none, status := "failed", download_path := none,
         custom_filename := none, scraped_at := 0, downloaded_at := none,
         error_msg := some "e" }] 0
      { video_url := "u", video_id := "abcdefghijk", title := none,
        channel_url := none, status := "failed", download_path := none,
        custom_filename := none, scraped_at := 0, downloaded_at := none,
        error_msg := some "e" } (by decide) (by decide)).2 "u" "again"

/-! ## Claim C3 -/

/-- C3 (corrected): a metadata-query timeout alone DOES fail the job.
With the metadata query timing out and a download that would have
succeeded, `download_video` returns `(False, "Download timeout")` and
marks the job failed — `subprocess.TimeoutExpired` from the 30-second
title query is caught by the handler that transitions the job to
`failed`, so the download never runs. -/
theorem C3_counterexample :
    download_video "downloads" "abcdefghijk" "u" none true
      ⟨MetaResult.timeout, DlResult.run ["ok\n"] 0⟩ =
    ((false, "Download timeout"),
     StatusUpdate.failed "u" "Download timeout") := by decide

/-- C3 (amended): when the title query returns a NON-ZERO exit code, the
synthetic fallback title `video_<content_id>` is used and the download
proceeds (exit code 0 then completes the job — the metadata failure by
itself never produces a failed transition); a title-query TIMEOUT,
however, transitions the job to failed with detail `"Download timeout"`
without attempting the download. -/
theorem C3_claim :
    (∀ dir vid url custom ut out rc lines, rc ≠ 0 →
        download_video dir vid url custom ut
            ⟨MetaResult.done rc out, DlResult.run lines 0⟩ =
          ((true, videoOutputPath dir
              (chooseFilename vid (fallbackTitle vid) custom ut)),
           StatusUpdate.completed url
             (videoOutputPath dir
               (chooseFilename vid (fallbackTitle vid) custom ut))
             (fallbackTitle vid) custom)) ∧
    (∀ dir vid url custom ut dl,
        (download_video dir vid url custom ut ⟨MetaResult.timeout, dl⟩).2 =
          StatusUpdate.failed url "Download timeout") := by
  constructor
  · intro dir vid url custom ut out rc lines hrc
    simp [download_video, hrc]
  · intro dir vid url custom ut dl
    rfl

/-- C3 witness: the amended theorem at a concrete non-zero metadata exit
code — the fallback title is used and the successful download completes
the job. -/
theorem C3_witness :
    download_video "downloads" "abcdefghijk" "u" none true
      ⟨MetaResult.done 1 "", DlResult.run ["ok\n"] 0⟩ =
    ((true, videoOutputPath "downloads"
        (chooseFilename "abcdefghijk" (fallbackTitle "abcdefghijk") none true)),
     StatusUpdate.completed "u"
       (videoOutputPath "downloads"
         (chooseFilename "abcdefghijk" (fallbackTitle "abcdefghijk") none true))
       (fallbackTitle "abcdefghijk") none) :=
  C3_claim.1 "downloads" "abcdefghijk" "u" none true "" 1 ["ok\n"]
    (by decide)

/-! ## Claim C5 -/

/-- C5 (confirmed): a non-zero downloader exit stores as `error_msg`
exactly `"".join(output_lines[-10:])[:500]` — the concatenation of the
last `min(N, 10)` output lines truncated to 500 characters — and the job
becomes failed; moreover EVERY failed transition performed by
`download_video` stores an error detail of at most 500 characters
(`"Download timeout"` and `str(e)[:500]` included). -/
theorem C5_claim :
    (∀ dir vid url custom ut rc out lines ec, ec ≠ 0 →
        (download_video dir vid url custom ut
            ⟨MetaResult.done rc out, DlResult.run lines ec⟩).2 =
          StatusUpdate.failed url
            (pyTake 500 (String.join (lastN 10 lines))) ∧
        (lastN 10 lines).length = min lines.length 10) ∧
    (∀ dir vid url custom ut env u e,
        (download_video dir vid url custom ut env).2 =
            StatusUpdate.failed u e →
          e.length ≤ 500) := by
  constructor
  · intro dir vid url custom ut rc out lines ec hec
    constructor
    · simp [download_video, hec]
    · simp [lastN, List.length_drop]
      omega
  · intro dir vid url custom ut env u e h
    obtain ⟨meta, dl⟩ := env
    cases meta with
    | timeout =>
        simp [download_video] at h
        rw [← h.2]
        decide
    | done rc out =>
        cases dl with
        | run lines ec =>
            by_cases hec : ec = 0
            · subst hec
              simp [download_video] at h
            · simp [download_video, hec] at h
              rw [← h.2]
              exact pyTake_length_le 500 _
        | fault msg =>
            simp [download_video] at h
            rw [← h.2]
            exact pyTake_length_le 500 _

/-- C5 witness: the spec's scenario — exit code 1 with 15 output lines;
the stored detail is the join of the last 10, truncated to 500. -/
theorem C5_witness :
    (download_video "downloads" "abcdefghijk" "u" none true
        ⟨MetaResult.done 0 "T", DlResult.run (List.replicate 15 "line\n") 1⟩).2 =
      StatusUpdate.failed "u"
        (pyTake 500 (String.join (lastN 10 (List.replicate 15 "line\n")))) ∧
    (lastN 10 (List.replicate 15 "line\n")).length =
      min (List.replicate 15 "line\n").length 10 :=
  C5_claim.1 "downloads" "abcdefghijk" "u" none true 0 "T"
    (List.replicate 15 "line\n") 1 (by decide)

/-! ## Claim C4 -/

/-- C4 (corrected): when identifier extraction fails no row is stored.
On an empty store and a URL with no extractable id, the `INSERT` binds
`video_id = NULL`, violates the `NOT NULL` constraint, the resulting
`IntegrityError` is swallowed, and the store stays empty with
`inserted = false` — even though no row with that `source_url` exists. -/
theorem C4_counterexample :
    extract_video_id "https://example.com/page" = none ∧
    insertVideo [] "https://example.com/page" "chan" 0 = ([], false) := by
  decide

/-- C4 (amended): a pending row is stored only when identifier
extraction succeeds.  When `content_id` is absent the insert is rejected
by the `NOT NULL` constraint and swallowed (no row, not counted); when
extraction succeeds, the operation reports "not newly added" exactly
when a row with the same `source_url` already exists, and otherwise
appends a fresh pending row.  No path raises on a duplicate. -/
theorem C4_claim (db : VideoDb) (url channel : String) (t : Nat) :
    (extract_video_id url = none → insertVideo db url channel t = (db, false)) ∧
    (∀ vid, extract_video_id url = some vid → url ∈ dbUrls db →
        insertVideo db url channel t = (db, false)) ∧
    (∀ vid, extract_video_id url = some vid → url ∉ dbUrls db →
        insertVideo db url channel t = (db ++ [newRow url vid channel t], true)) := by
  refine ⟨?_, ?_, ?_⟩
  · intro h
    simp [insertVideo, h]
  · intro vid h hmem
    simp [insertVideo, h, hmem]
  · intro vid h hmem
    simp [insertVideo, h, hmem]

/-- C4 witness: the amended theorem at a concrete URL with an extractable
id inserted into the empty store. -/
theorem C4_witness :
    insertVideo [] "https://www.youtube.com/watch?v=abcdefghijk" "chan" 0 =
      ([newRow "https://www.youtube.com/watch?v=abcdefghijk" "abcdefghijk"
          "chan" 0], true) :=
  (C4_claim [] "https://www.youtube.com/watch?v=abcdefghijk" "chan" 0).2.2
    "abcdefghijk" (by decide) (by decide)

/-! ## Claim C7 -/

theorem insert_mem_urls {x : String} (db : VideoDb) (u channel : String)
    (t : Nat) (hx : x ∈ dbUrls db) :
    x ∈ dbUrls (insertVideo db u channel t).1 := by
  cases hext : extract_video_id u with
  | none => simpa [insertVideo, hext] using hx
  | some vid =>
      by_cases hmem : u ∈ dbUrls db
      · simpa [insertVideo, hext, hmem] using hx
      · simp only [insertVideo, hext, if_neg hmem]
        show x ∈ dbUrls (db ++ [newRow u vid channel t])
        unfold dbUrls at *
        rw [List.map_append]
        exact List.mem_append.mpr (Or.inl hx)

theorem insert_self_mem {db : VideoDb} {u : String} (channel : String)
    (t : Nat) {vid : String} (h : extract_video_id u = some vid) :
    u ∈ dbUrls (insertVideo db u channel t).1 := by
  by_cases hmem : u ∈ dbUrls db
  · simp [insertVideo, h, hmem]
  · simp only [insertVideo, h, if_neg hmem]
    show u ∈ dbUrls (db ++ [newRow u vid channel t])
    unfold dbUrls
    rw [List.map_append]
    exact List.mem_append.mpr (Or.inr (by simp [newRow]))

theorem insert_noop {db : VideoDb} {u : String} (channel : String) (t : Nat)
    (h : extract_video_id u = none ∨ u ∈ dbUrls db) :
    insertVideo db u channel t = (db, false) := by
  cases h with
  | inl h => simp [insertVideo, h]
  | inr h =>
      cases hext : extract_video_id u with
      | none => simp [insertVideo, hext]
      | some vid => simp [insertVideo, hext, h]

theorem add_videos_mem_urls {x : String} (urls : List String)
    (channel : String) (t : Nat) :
    ∀ db : VideoDb, x ∈ dbUrls db →
      x ∈ dbUrls (add_videos_to_db db urls channel t).1 := by
  induction urls with
  | nil => intro db hx; exact hx
  | cons u rest ih =>
      intro db hx
      simp only [add_videos_to_db]
      exact ih _ (insert_mem_urls db u channel t hx)

theorem add_videos_self_mem (urls : List String) (channel : String)
    (t : Nat) :
    ∀ db : VideoDb, ∀ u ∈ urls, ∀ vid, extract_video_id u = some vid →
      u ∈ dbUrls (add_videos_to_db db urls channel t).1 := by
  induction urls with
  | nil => intro db u hu; simp at hu
  | cons w rest ih =>
      intro db u hu vid hvid
      simp only [List.mem_cons] at hu
      simp only [add_videos_to_db]
      cases hu with
      | inl h =>
          subst h
          exact add_videos_mem_urls rest channel t _
            (insert_self_mem channel t hvid)
      | inr h => exact ih _ u h vid hvid

theorem add_videos_noop (urls : List String) (channel : String) (t : Nat) :
    ∀ db : VideoDb,
      (∀ u ∈ urls, extract_video_id u = none ∨ u ∈ dbUrls db) →
      (add_videos_to_db db urls channel t).1 = db := by
  induction urls with
  | nil => intro db _; rfl
  | cons u rest ih =>
      intro db h
      simp only [add_videos_to_db, insert_noop channel t (h u (by simp))]
      exact ih db (fun w hw => h w (by simp [hw]))

theorem insert_nodup (db : VideoDb) (u channel : String) (t : Nat)
    (h : (dbUrls db).Nodup) :
    (dbUrls (insertVideo db u channel t).1).Nodup := by
  cases hext : extract_video_id u with
  | none => simpa [insertVideo, hext] using h
  | some vid =>
      by_cases hmem : u ∈ dbUrls db
      · simpa [insertVideo, hext, hmem] using h
      · simp only [insertVideo, hext, if_neg hmem]
        show (dbUrls (db ++ [newRow u vid channel t])).Nodup
        unfold dbUrls at *
        rw [List.map_append]
        rw [List.nodup_append]
        refine ⟨h, by simp, ?_⟩
        intro x hx
        simp only [List.map_cons, List.map_nil, List.mem_singleton]
        intro hx1
        apply hmem
        rw [show (newRow u vid channel t).video_url = u from rfl] at hx1
        exact hx1 ▸ hx

/-- C7 (confirmed): inserting a discovery result twice leaves the store
exactly as inserting it once — every URL of the list is, after the first
pass, either unextractable (never stored) or already present, so the
second pass is a no-op; and the insert operation never creates two rows
with the same `source_url` (it preserves Nodup of the url column). -/
theorem C7_claim (urls : List String) (channel : String) (t : Nat)
    (db : VideoDb) :
    (add_videos_to_db (add_videos_to_db db urls channel t).1 urls channel t).1 =
      (add_videos_to_db db urls channel t).1 ∧
    ((dbUrls db).Nodup →
      (dbUrls (add_videos_to_db db urls channel t).1).Nodup) := by
  constructor
  · apply add_videos_noop
    intro u hu
    cases hext : extract_video_id u with
    | none => exact Or.inl rfl
    | some vid =>
        exact Or.inr (add_videos_self_mem urls channel t db u hu vid hext)
  · intro hnd
    induction urls generalizing db with
    | nil => exact hnd
    | cons u rest ih =>
        simp only [add_videos_to_db]
        exact ih _ (insert_nodup db u channel t hnd)

/-- C7 witness: a concrete double insertion of a two-URL discovery (one
URL repeated) — the second pass changes nothing and the url column stays
duplicate-free. -/
theorem C7_witness :
    (add_videos_to_db
        (add_videos_to_db []
          ["https://www.youtube.com/watch?v=abcdefghijk",
           "https://www.youtube.com/watch?v=abcdefghijk"] "chan" 0).1
        ["https://www.youtube.com/watch?v=abcdefghijk",
         "https://www.youtube.com/watch?v=abcdefghijk"] "chan" 0).1 =
      (add_videos_to_db []
        ["https://www.youtube.com/watch?v=abcdefghijk",
         "https://www.youtube.com/watch?v=abcdefghijk"] "chan" 0).1 ∧
    (dbUrls (add_videos_to_db []
        ["https://www.youtube.com/watch?v=abcdefghijk",
         "https://www.youtube.com/watch?v=abcdefghijk"] "chan" 0).1).Nodup :=
  ⟨(C7_claim
      ["https://www.youtube.com/watch?v=abcdefghijk",
       "https://www.youtube.com/watch?v=abcdefghijk"] "chan" 0 []).1,
   (C7_claim
      ["https://www.youtube.com/watch?v=abcdefghijk",
       "https://www.youtube.com/watch?v=abcdefghijk"] "chan" 0 []).2
     (by decide)⟩

/-! ## Claim C6 -/

/-- C6 (corrected): interactive choices DO leak across items.  With
`use_title` initially true and two items answered `"n"` then `"y"`, the
second item is named by video id; had the first item been answered
`"y"`, the second (with the same own answer) would be named by title —
the `"n"` answer mutates the loop's `use_title` variable for all later
items. -/
theorem C6_counterexample :
    namingDecisions true [⟨"n", ""⟩, ⟨"y", ""⟩] =
      [NamingMode.byId, NamingMode.byId] ∧
    namingDecisions true [⟨"y", ""⟩, ⟨"y", ""⟩] =
      [NamingMode.byTitle, NamingMode.byTitle] := by decide

/-- C6 (amended): any answer other than `"n"` (keep-title or a custom
name) affects only its own item — later items are decided exactly as if
that item had not occurred; an `"n"` answer, however, names its own item
by video id AND permanently clears `use_title`, after which every later
item is named by video id unless a custom name is supplied for it. -/
theorem C6_claim :
    (∀ u c rest, c.answer ≠ "n" →
        namingDecisions u (c :: rest) =
          namingStepMode u c :: namingDecisions u rest) ∧
    (∀ u c rest, c.answer = "n" →
        namingDecisions u (c :: rest) =
          NamingMode.byId :: namingDecisions false rest) ∧
    (∀ rest, ∀ m ∈ namingDecisions false rest,
        m = NamingMode.byId ∨ ∃ s, m = NamingMode.custom s) := by
  refine ⟨?_, ?_, ?_⟩
  · intro u c rest h
    simp [namingDecisions, h]
  · intro u c rest h
    have hnc : c.answer ≠ "custom" := by rw [h]; decide
    simp [namingDecisions, namingStepMode, h, hnc]
  · intro rest
    induction rest with
    | nil => intro m hm; simp [namingDecisions] at hm
    | cons c rest ih =>
        intro m hm
        simp only [namingDecisions, ite_self, List.mem_cons] at hm
        cases hm with
        | inl h =>
            subst h
            unfold namingStepMode
            by_cases hc : c.answer = "custom"
            · rw [if_pos hc]
              exact Or.inr ⟨c.customName, rfl⟩
            · rw [if_neg hc]
              by_cases hn : c.answer = "n"
              · rw [if_pos hn]; exact Or.inl rfl
              · rw [if_neg hn]; exact Or.inl rfl
        | inr h => exact ih m h

/-- C6 witness: the amended theorem applied to concrete items — a
keep-title answer leaves the next item's decision unchanged. -/
theorem C6_witness :
    namingDecisions true [⟨"y", ""⟩, ⟨"custom", "x"⟩] =
      namingStepMode true ⟨"y", ""⟩ ::
        namingDecisions true [⟨"custom", "x"⟩] :=
  C6_claim.1 true ⟨"y", ""⟩ [⟨"custom", "x"⟩] (by decide)

/-! ## Claim C8 -/

/-- C8 (confirmed): with confirmation skipped (or answered `y`), deleting
by a status filter — or `"all"` — removes exactly the matching rows,
keeps every non-matching row unchanged (the result is literally the
filter of the original table), and reports a count equal to the number of
matching rows, which together with the kept rows accounts for the whole
table. -/
theorem C8_claim (db : VideoDb) (filt : String) (answer : String) :
    delete_videos db filt true answer =
      (db.filter (fun r => !statusMatches filt r),
       (db.filter (statusMatches filt)).length) ∧
    delete_videos db filt false "y" =
      (db.filter (fun r => !statusMatches filt r),
       (db.filter (statusMatches filt)).length) ∧
    (db.filter (statusMatches filt)).length +
      (db.filter (fun r => !statusMatches filt r)).length = db.length := by
  have hsplit := length_filter_split db (statusMatches filt)
  have hzero : (db.filter (statusMatches filt)).length = 0 →
      db.filter (fun r => !statusMatches filt r) = db := by
    intro h0
    have hnil := List.length_eq_zero.mp h0
    rw [List.filter_eq_self]
    intro a ha
    by_contra hcon
    have : a ∈ db.filter (statusMatches filt) := by
      rw [List.mem_filter]
      exact ⟨ha, by simpa using hcon⟩
    rw [hnil] at this
    simp at this
  refine ⟨?_, ?_, hsplit⟩
  · unfold delete_videos
    by_cases h0 : (db.filter (statusMatches filt)).length = 0
    · rw [if_pos h0, hzero h0, h0]
    · rw [if_neg h0]
      simp
  · unfold delete_videos
    by_cases h0 : (db.filter (statusMatches filt)).length = 0
    · rw [if_pos h0, hzero h0, h0]
    · rw [if_neg h0]
      rw [if_neg (by decide : ¬(false = false ∧ pyLower "y" ≠ "y"))]

/-! ## Claim C9 -/

/-- C9 (corrected): truncation can reintroduce trailing whitespace.  A
name of 199 `a`s, a space and `bb` has no reserved characters and is
already stripped, but `[:200]` cuts it to 199 `a`s followed by a space —
the derived filename ends in whitespace. -/
theorem C9_counterexample :
    lastNotSpace (sanitize_filename
      (String.mk (List.replicate 199 'a' ++ [' ', 'b', 'b']))) = false := by
  decide

/-- The output of `_sanitize_filename` on any input: no reserved
characters, no leading whitespace, at most 200 characters, and no
trailing whitespace as long as the stripped name fits in 200 characters
(the `[:200]` truncation runs after `strip()`). -/
theorem sanitize_filename_safe (s : String) :
    noReserved (sanitize_filename s) = true ∧
    headNotSpace (sanitize_filename s) = true ∧
    (sanitize_filename s).length ≤ 200 ∧
    ((pyStripL (s.data.filter (fun c => !reservedChar c))).length ≤ 200 →
      lastNotSpace (sanitize_filename s) = true) := by
  refine ⟨?_, ?_, ?_, ?_⟩
  · refine List.all_eq_true.mpr ?_
    intro c hc
    have h1 : c ∈ pyStripL (s.data.filter (fun c => !reservedChar c)) :=
      List.mem_of_mem_take hc
    have h2 := mem_pyStripL h1
    rw [List.mem_filter] at h2
    exact h2.2
  · show (match ((pyStripL (s.data.filter (fun c => !reservedChar c))).take
        200).head? with
      | some c => !pySpace c
      | none => true) = true
    rw [show (200 : Nat) = 199 + 1 from rfl, head?_take_succ]
    cases hh : (pyStripL (s.data.filter (fun c => !reservedChar c))).head? with
    | none => rfl
    | some c => simp [head?_pyStripL hh]
  · show ((pyStripL (s.data.filter (fun c => !reservedChar c))).take
        200).length ≤ 200
    rw [List.length_take]
    exact min_le_left ..
  · intro hlen
    show (match ((pyStripL (s.data.filter (fun c => !reservedChar c))).take
        200).reverse.head? with
      | some c => !pySpace c
      | none => true) = true
    rw [List.take_of_length_le hlen]
    cases hh : (pyStripL (s.data.filter (fun c => !reservedChar c))).reverse.head? with
    | none => rfl
    | some c => simp [revHead?_pyStripL hh]

theorem matchIdAt_spec {cs tok : List Char} (h : matchIdAt cs = some tok) :
    tok.length = 11 ∧ tok.all isIdChar = true := by
  unfold matchIdAt at h
  split at h
  · rename_i rest
    have h2 : (if (rest.take 11).length = 11 && (rest.take 11).all isIdChar
        then some (rest.take 11) else none) = some tok := h
    by_cases hc : ((rest.take 11).length = 11 && (rest.take 11).all isIdChar) = true
    · rw [if_pos hc] at h2
      injection h2 with h2
      subst h2
      simpa using hc
    · rw [if_neg hc] at h2
      exact absurd h2 (by simp)
  · exact absurd h (by simp)

theorem findVideoId_spec : ∀ {cs l : List Char},
    findVideoId cs = some l → l.length = 11 ∧ l.all isIdChar = true := by
  intro cs
  induction cs with
  | nil => intro l h; simp [findVideoId] at h
  | cons c rest ih =>
      intro l h
      simp only [findVideoId] at h
      cases hm : matchIdAt (c :: rest) with
      | some tok =>
          rw [hm] at h
          injection h with h
          subst h
          exact matchIdAt_spec hm
      | none =>
          rw [hm] at h
          exact ih h

/-- A successfully extracted `video_id` is exactly the captured group:
eleven characters of the class `[a-zA-Z0-9_-]`. -/
theorem extract_video_id_spec {url vid : String}
    (h : extract_video_id url = some vid) :
    vid.length = 11 ∧ vid.data.all isIdChar = true := by
  unfold extract_video_id at h
  cases hf : findVideoId url.data with
  | none => rw [hf] at h; simp at h
  | some l =>
      rw [hf] at h
      injection h with h
      obtain ⟨hl, hall⟩ := findVideoId_spec hf
      rw [← h]
      exact ⟨hl, hall⟩

theorem idChar_not_reserved {c : Char} (h : isIdChar c = true) :
    reservedChar c = false := by
  by_contra hcon
  rw [Bool.not_eq_false] at hcon
  simp only [reservedChar, Bool.or_eq_true, decide_eq_true_eq] at hcon
  rcases hcon with
      ((((((((h1 | h1) | h1) | h1) | h1) | h1) | h1) | h1) | h1) <;>
    subst h1 <;> exact absurd h (by decide)

theorem idChar_not_space {c : Char} (h : isIdChar c = true) :
    pySpace c = false := by
  by_contra hcon
  rw [Bool.not_eq_false] at hcon
  simp only [pySpace, Bool.or_eq_true, decide_eq_true_eq] at hcon
  rcases hcon with (((((h1 | h1) | h1) | h1) | h1) | h1) <;>
    subst h1 <;> exact absurd h (by decide)

theorem mem_of_head?_eq_some {α : Type} {l : List α} {a : α}
    (h : l.head? = some a) : a ∈ l := by
  cases l with
  | nil => simp at h
  | cons x t =>
      simp only [List.head?_cons, Option.some.injEq] at h
      subst h
      simp

/-- C9 (amended): every branch of the filename choice is covered.  The
custom-name and title branches pass through `_sanitize_filename`, whose
output has no reserved characters, no leading whitespace and at most 200
characters — and no trailing whitespace provided the stripped name fits
in 200 characters (the `[:200]` truncation runs after `strip()`, so an
over-long name cut right after an interior space ends in whitespace).
The content-id branch uses the raw `video_id` with NO sanitization; it
is nonetheless safe whenever the id came from `_extract_video_id`,
because the captured group is eleven characters of `[a-zA-Z0-9_-]` —
no reserved characters, no whitespace, well under 200 characters. -/
theorem C9_claim :
    (∀ s : String,
      noReserved (sanitize_filename s) = true ∧
      headNotSpace (sanitize_filename s) = true ∧
      (sanitize_filename s).length ≤ 200 ∧
      ((pyStripL (s.data.filter (fun c => !reservedChar c))).length ≤ 200 →
        lastNotSpace (sanitize_filename s) = true)) ∧
    (∀ url vid : String, extract_video_id url = some vid →
      noReserved vid = true ∧ headNotSpace vid = true ∧
      lastNotSpace vid = true ∧ vid.length = 11 ∧ vid.length ≤ 200) ∧
    (∀ video_id title : String, ∀ custom : Option String, ∀ ut : Bool,
      chooseFilename video_id title custom ut = video_id ∨
      ∃ s : String, chooseFilename video_id title custom ut =
        sanitize_filename s) := by
  refine ⟨sanitize_filename_safe, ?_, ?_⟩
  · intro url vid h
    obtain ⟨hlen, hall⟩ := extract_video_id_spec h
    have hid : ∀ c ∈ vid.data, isIdChar c = true := List.all_eq_true.mp hall
    refine ⟨?_, ?_, ?_, hlen, by rw [hlen]; omega⟩
    · refine List.all_eq_true.mpr ?_
      intro c hc
      simp [idChar_not_reserved (hid c hc)]
    · show (match vid.data.head? with
        | some c => !pySpace c
        | none => true) = true
      cases hh : vid.data.head? with
      | none => rfl
      | some c => simp [idChar_not_space (hid c (mem_of_head?_eq_some hh))]
    · show (match vid.data.reverse.head? with
        | some c => !pySpace c
        | none => true) = true
      cases hh : vid.data.reverse.head? with
      | none => rfl
      | some c =>
          have hcmem : c ∈ vid.data :=
            List.mem_reverse.mp (mem_of_head?_eq_some hh)
          simp [idChar_not_space (hid c hcmem)]
  · intro video_id title custom ut
    cases custom with
    | some c => exact Or.inr ⟨c, rfl⟩
    | none =>
        cases ut with
        | true => exact Or.inr ⟨title, rfl⟩
        | false => exact Or.inl rfl

/-- C9 witness: the spec's example title through the sanitizing branches,
and the extracted id of a concrete watch URL through the raw content-id
branch — both safe. -/
theorem C9_witness :
    noReserved (sanitize_filename "My/Video:Title?") = true ∧
    lastNotSpace (sanitize_filename "My/Video:Title?") = true ∧
    noReserved "abcdefghijk" = true ∧
    lastNotSpace "abcdefghijk" = true :=
  ⟨(C9_claim.1 "My/Video:Title?").1,
   (C9_claim.1 "My/Video:Title?").2.2.2 (by decide),
   (C9_claim.2.1 "https://www.youtube.com/watch?v=abcdefghijk" "abcdefghijk"
      (by decide)).1,
   (C9_claim.2.1 "https://www.youtube.com/watch?v=abcdefghijk" "abcdefghijk"
      (by decide)).2.2.1⟩

/-! ## Claim C10 -/

theorem string_append_empty (s : String) : s ++ "" = s := by
  cases s with
  | mk data =>
      show String.mk (data ++ []) = String.mk data
      rw [List.append_nil]

theorem string_append_assoc (a b c : String) :
    (a ++ b) ++ c = a ++ (b ++ c) := by
  cases a with
  | mk da =>
      cases b with
      | mk db =>
          cases c with
          | mk dc =>
              show String.mk ((da ++ db) ++ dc) = String.mk (da ++ (db ++ dc))
              rw [List.append_assoc]

/-- C10 (confirmed): a name made only of reserved characters and
whitespace sanitizes to the empty string, so the computed output path is
the download directory joined with bare `.mp4`; any two such names yield
the same path, and nothing substitutes a fallback name. -/
theorem C10_claim (s dir : String)
    (h : ∀ c ∈ s.data, reservedChar c = true ∨ pySpace c = true) :
    sanitize_filename s = "" ∧
    videoOutputPath dir (sanitize_filename s) = dir ++ "/.mp4" ∧
    (∀ s2 : String, (∀ c ∈ s2.data, reservedChar c = true ∨ pySpace c = true) →
      videoOutputPath dir (sanitize_filename s2) =
        videoOutputPath dir (sanitize_filename s)) := by
  have hempty : ∀ s0 : String,
      (∀ c ∈ s0.data, reservedChar c = true ∨ pySpace c = true) →
      sanitize_filename s0 = "" := by
    intro s0 h0
    have hall : ∀ c ∈ s0.data.filter (fun c => !reservedChar c),
        pySpace c = true := by
      intro c hc
      rw [List.mem_filter] at hc
      cases h0 c hc.1 with
      | inl hres => rw [hres] at hc; simp at hc
      | inr hsp => exact hsp
    have hnil : pyStripL (s0.data.filter (fun c => !reservedChar c)) = [] := by
      unfold pyStripL
      rw [dropWhile_eq_nil_all hall]
      rfl
    show String.mk ((pyStripL (s0.data.filter (fun c => !reservedChar c))).take
        200) = ""
    rw [hnil]
    rfl
  have hs := hempty s h
  refine ⟨hs, ?_, ?_⟩
  · unfold videoOutputPath
    rw [hs, string_append_empty, string_append_assoc]
    rfl
  · intro s2 h2
    rw [hempty s2 h2, hs]

/-- C10 witness: a concrete all-reserved-and-whitespace name — sanitized
empty, output path `downloads/.mp4`. -/
theorem C10_witness :
    sanitize_filename "/?* \\<>:|" = "" ∧
    videoOutputPath "downloads" (sanitize_filename "/?* \\<>:|") =
      "downloads" ++ "/.mp4" :=
  ⟨(C10_claim "/?* \\<>:|" "downloads" (by decide)).1,
   (C10_claim "/?* \\<>:|" "downloads" (by decide)).2.1⟩
